import Mathlib

/-!
Formal model of the convex-polygon overlap analyzer from
`BaseClassShape.h` and `DerivedClassRectangle.cpp`.

Coordinates are modelled as rationals: the C++ code stores `float`
values and compares them with exact equality throughout (the spec
documents exact floating-point equality as the intended contract),
so exact rational arithmetic reproduces the branch structure.
The sentinel `INV` (`0xdeadbeef`) is kept as the literal rational
3735928559.  Out-of-range reads of the coordinate array are
totalized to 0 (the C++ code never performs them on the inputs the
program constructs).
-/

set_option maxRecDepth 4000

/-- The sentinel value `INV` (`0xdeadbeef`) from the source header. -/
def INV : ℚ := 3735928559

/-- The `CollisionType` enumeration of the source:
`adj` adjacency, `contain` containment, `apart` separation,
`none` intersection (no conclusion from one subject's edges). -/
inductive CollisionType where
  | adj
  | contain
  | apart
  | none
deriving DecidableEq, Repr

/-- State of a `Shape` object: side count `mNumSides`, the flat
coordinate array `mPoints` (x and y interleaved, `2 * mNumSides`
entries), the candidate-edge vector `mIsectEdge`, and `mName`. -/
structure Shape where
  mNumSides : ℕ
  mPoints : List ℚ
  mIsectEdge : List ℕ
  mName : String
deriving DecidableEq, Repr

/-- Read `mPoints[k]` (out-of-range totalized to 0). -/
def getP (S : Shape) (k : ℕ) : ℚ := S.mPoints.getD k 0

/-- `x1 = mPoints[2 * index]`: x of the edge's first endpoint. -/
def ex1 (S : Shape) (i : ℕ) : ℚ := getP S (2 * i)

/-- `y1 = mPoints[2 * index + 1]`: y of the edge's first endpoint. -/
def ey1 (S : Shape) (i : ℕ) : ℚ := getP S (2 * i + 1)

/-- `x2 = mPoints[(2 * index + 2) % (2 * mNumSides)]`: x of the edge's
second endpoint, wrapping the last edge back to vertex 0. -/
def ex2 (S : Shape) (i : ℕ) : ℚ := getP S ((2 * i + 2) % (2 * S.mNumSides))

/-- `y2 = mPoints[(2 * index + 3) % (2 * mNumSides)]`: y of the edge's
second endpoint. -/
def ey2 (S : Shape) (i : ℕ) : ℚ := getP S ((2 * i + 3) % (2 * S.mNumSides))

/-- `Shape::LiesOnEdge`: whether `(x, y)` falls inside the inclusive
bounding box of the edge starting at vertex `index`. -/
def LiesOnEdge (S : Shape) (x y : ℚ) (index : ℕ) : Bool :=
  decide ((ex1 S index ≤ x ∧ x ≤ ex2 S index) ∨ (ex2 S index ≤ x ∧ x ≤ ex1 S index)) &&
  decide ((ey1 S index ≤ y ∧ y ≤ ey2 S index) ∨ (ey2 S index ≤ y ∧ y ≤ ey1 S index))

/-- `rot_x = y2 - y1`: x component of the rotated edge vector. -/
def rotX (A : Shape) (i : ℕ) : ℚ := ey2 A i - ey1 A i

/-- `rot_y = x1 - x2`: y component of the rotated edge vector. -/
def rotY (A : Shape) (i : ℕ) : ℚ := ex1 A i - ex2 A i

/-- The dot product of vertex `(x, y)` against edge `i`'s rotated
vector, taken relative to the edge's first endpoint. -/
def dotprod (A : Shape) (i : ℕ) (x y : ℚ) : ℚ :=
  rotX A i * (x - ex1 A i) + rotY A i * (y - ey1 A i)

/-- Accumulated dot product of all of the subject's own vertices
against its edge `i` (the value of `sum_A` before sign reduction). -/
def sumAraw (A : Shape) (i : ℕ) : ℚ :=
  (List.range A.mNumSides).foldl
    (fun s j => s + dotprod A i (getP A (2 * j)) (getP A (2 * j + 1))) 0

/-- `sum_A = sum_A > 0 ? 1 : -1`: the subject's own side sign. -/
def sumA (A : Shape) (i : ℕ) : ℚ := if sumAraw A i > 0 then 1 else -1

/-- One iteration of the loop over the other polygon's vertices:
a nonzero dot product bumps `sum_B` by its sign; a zero dot product
bumps `adj_ct` when the vertex lies within the edge's bounds. -/
def scanStep (A B : Shape) (i : ℕ) (p : ℚ × ℕ) (j : ℕ) : ℚ × ℕ :=
  let x := getP B (2 * j)
  let y := getP B (2 * j + 1)
  let d := dotprod A i x y
  if d ≠ 0 then (if d > 0 then (p.1 + 1, p.2) else (p.1 - 1, p.2))
  else if LiesOnEdge A x y i then (p.1, p.2 + 1)
  else p

/-- The pair `(sum_B, adj_ct)` produced by the loop over the other
polygon's vertices for edge `i` of the subject. -/
def scanB (A B : Shape) (i : ℕ) : ℚ × ℕ :=
  (List.range B.mNumSides).foldl (scanStep A B i) (0, 0)

/-- `sum_B` for edge `i` of the subject. -/
def sumB (A B : Shape) (i : ℕ) : ℚ := (scanB A B i).1

/-- `adj_ct` for edge `i` of the subject. -/
def adjCt (A B : Shape) (i : ℕ) : ℕ := (scanB A B i).2

/-- Outcome of one iteration of `Analyze`'s edge loop. -/
inductive EdgeStep where
  | sApart
  | sAdj
  | sPush
  | sContain
deriving DecidableEq, Repr

/-- The decision `Analyze` takes at edge `i` of the subject:
return `apart`, return `adj`, push `i` onto the candidate-edge
vector, or cast a containment vote. -/
def edgeStep (A B : Shape) (i : ℕ) : EdgeStep :=
  if sumB A B i = -(sumA A i) * (B.mNumSides : ℚ) then EdgeStep.sApart
  else if adjCt A B i = 2 then
    (if (if sumB A B i > 0 then (1 : ℚ) else -1) = -(sumA A i) then EdgeStep.sAdj
     else EdgeStep.sPush)
  else if sumB A B i = sumA A i * (B.mNumSides : ℚ) then EdgeStep.sContain
  else EdgeStep.sPush

/-- The edge loop of `Analyze`: `js` is the list of remaining edge
indices, `ct` the containment counter so far, `acc` the current
contents of the subject's `mIsectEdge` vector. -/
def analyzeGo (A B : Shape) : List ℕ → ℕ → List ℕ → CollisionType × List ℕ
  | [], ct, acc =>
      (if ct = B.mNumSides then CollisionType.contain else CollisionType.none, acc)
  | i :: rest, ct, acc =>
      match edgeStep A B i with
      | EdgeStep.sApart => (CollisionType.apart, acc)
      | EdgeStep.sAdj => (CollisionType.adj, acc)
      | EdgeStep.sContain => analyzeGo A B rest (ct + 1) acc
      | EdgeStep.sPush => analyzeGo A B rest ct (acc ++ [i])

/-- `Analyze(Shape& A, const Shape& B)`: runs the edge loop over all
of the subject's edges starting from the subject's current
`mIsectEdge` vector (the source never clears it) and returns the
classification together with the updated subject. -/
def Analyze (A B : Shape) : CollisionType × Shape :=
  let r := analyzeGo A B (List.range A.mNumSides) 0 A.mIsectEdge
  (r.1, { A with mIsectEdge := r.2 })

/-- The edge indices recorded during a single `Analyze` run, i.e. the
candidate-edge vector the loop produces when started empty. -/
def recorded (A B : Shape) : List ℕ :=
  (analyzeGo A B (List.range A.mNumSides) 0 []).2

/-- `ProcessData(Shape& A, Shape& B, int *which)`: first analysis on
A's edges; if conclusive, return it with `which = 0`; otherwise
analyze on B's edges (A carrying the state of the first call) and
return that with `which = 1`.  The result tuple carries the final
states of both shapes. -/
def ProcessData (A B : Shape) : CollisionType × Shape × Shape × ℕ :=
  let r1 := Analyze A B
  if r1.1 ≠ CollisionType.none then (r1.1, r1.2, B, 0)
  else
    let r2 := Analyze B r1.2
    (r2.1, r1.2, r2.2, 1)

/-- `A_slope` / `B_slope` as computed inside `FindIntersection`: the
sentinel `INV` for an edge parallel to either axis, otherwise
`(y1 - y2) / (x1 - x2)`. -/
def slopeE (S : Shape) (i : ℕ) : ℚ :=
  if ex1 S i = ex2 S i then INV
  else if ey1 S i = ey2 S i then INV
  else (ey1 S i - ey2 S i) / (ex1 S i - ex2 S i)

/-- `intercept = y1 - slope * x1`.  The source computes it only for a
sloped edge and reads it only under a `slope != INV` guard; the
definition is total but agrees with the source wherever the source
defines and reads the value. -/
def interceptE (S : Shape) (i : ℕ) : ℚ := ey1 S i - slopeE S i * ex1 S i

/-- The reset block at the top of the inner loop: a vertical subject
edge keeps `intr_x` and invalidates `intr_y`, a horizontal one keeps
`intr_y`, a sloped one invalidates both. -/
def postReset (A : Shape) (ai : ℕ) (p : ℚ × ℚ) : ℚ × ℚ :=
  if ex1 A ai = ex2 A ai then (p.1, INV)
  else if ey1 A ai = ey2 A ai then (INV, p.2)
  else (INV, INV)

/-- The assignments made after fetching B's edge: a vertical B edge
sets `intr_x`, a horizontal one sets `intr_y`. -/
def postBSet (B : Shape) (bi : ℕ) (p : ℚ × ℚ) : ℚ × ℚ :=
  if ex1 B bi = ex2 B bi then (ex1 B bi, p.2)
  else if ey1 B bi = ey2 B bi then (p.1, ey1 B bi)
  else p

/-- The guard of the perpendicular fast path:
`(intr_x == A_x1 && intr_y == B_y1) || (intr_x == B_x1 && intr_y == A_y1)`. -/
def perpCond (A B : Shape) (ai bi : ℕ) (p : ℚ × ℚ) : Bool :=
  decide ((p.1 = ex1 A ai ∧ p.2 = ey1 B bi) ∨ (p.1 = ex1 B bi ∧ p.2 = ey1 A ai))

/-- True when none of the four axis-aligned-versus-sloped `else if`
conditions fires, so control reaches the final sloped-sloped case. -/
def chainFallthrough (A B : Shape) (ai bi : ℕ) (p : ℚ × ℚ) : Bool :=
  decide (¬(p.1 = ex1 A ai ∧ slopeE B bi ≠ INV) ∧
          ¬(p.1 = ex1 B bi ∧ slopeE A ai ≠ INV) ∧
          ¬(p.2 = ey1 A ai ∧ slopeE B bi ≠ INV) ∧
          ¬(p.2 = ey1 B bi ∧ slopeE A ai ≠ INV))

/-- The `else if` chain solving the two line equations, entered with
the `(intr_x, intr_y)` pair left by the axis-alignment assignments. -/
def solveIntr (A B : Shape) (ai bi : ℕ) (p : ℚ × ℚ) : ℚ × ℚ :=
  if p.1 = ex1 A ai ∧ slopeE B bi ≠ INV then
    (p.1, slopeE B bi * p.1 + interceptE B bi)
  else if p.1 = ex1 B bi ∧ slopeE A ai ≠ INV then
    (p.1, slopeE A ai * p.1 + interceptE A ai)
  else if p.2 = ey1 A ai ∧ slopeE B bi ≠ INV then
    ((ey1 A ai - interceptE B bi) / slopeE B bi, p.2)
  else if p.2 = ey1 B bi ∧ slopeE A ai ≠ INV then
    ((ey1 B bi - interceptE A ai) / slopeE A ai, p.2)
  else
    let x := (interceptE B bi - interceptE A ai) / (slopeE A ai - slopeE B bi)
    (x, slopeE A ai * x + interceptE A ai)

/-- One inner-loop iteration of `FindIntersection` for the candidate
pair `(ai, bi)`, given the incoming `(intr_x, intr_y)` state: returns
the point printed for this pair (if any) and the outgoing state.
When both edges are sloped with equal slopes the source divides by
zero: in `float` arithmetic this yields a non-finite value that fails
every later equality and bounds comparison, so no point is printed;
the model returns `none` there and uses `(INV, INV)` as the stand-in
for the non-finite state. -/
def stepPair (A B : Shape) (ai bi : ℕ) (ix iy : ℚ) : Option (ℚ × ℚ) × ℚ × ℚ :=
  let p1 := postReset A ai (ix, iy)
  if (ex1 A ai = ex2 A ai ∧ ex1 B bi = ex2 B bi) ∨
     (ey1 A ai = ey2 A ai ∧ ey1 B bi = ey2 B bi) then
    (Option.none, p1)
  else
    let p2 := postBSet B bi p1
    if perpCond A B ai bi p2 then
      (if LiesOnEdge A p2.1 p2.2 ai && LiesOnEdge B p2.1 p2.2 bi then some p2
       else Option.none, p2)
    else if chainFallthrough A B ai bi p2 && decide (slopeE A ai = slopeE B bi) then
      (Option.none, INV, INV)
    else
      let q := solveIntr A B ai bi p2
      if (q.1 = ex2 A ai ∧ q.2 = ey2 A ai) ∨ (q.1 = ex2 B bi ∧ q.2 = ey2 B bi) then
        (Option.none, q)
      else if LiesOnEdge A q.1 q.2 ai && LiesOnEdge B q.1 q.2 bi then
        (some q, q)
      else (Option.none, q)

/-- Initial `intr_x` before the inner loop: set in the outer loop for
a vertical subject edge; otherwise the C local is uninitialized but
is overwritten by the reset block before any read, so the stand-in
`INV` is unobservable. -/
def initIx (A : Shape) (ai : ℕ) : ℚ :=
  if ex1 A ai = ex2 A ai then ex1 A ai else INV

/-- Initial `intr_y` before the inner loop: set in the outer loop for
a horizontal subject edge; otherwise unobservable (see `initIx`). -/
def initIy (A : Shape) (ai : ℕ) : ℚ :=
  if ex1 A ai = ex2 A ai then INV
  else if ey1 A ai = ey2 A ai then ey1 A ai else INV

/-- The inner loop of `FindIntersection` over B's candidate edges,
threading the `(intr_x, intr_y)` state exactly as the source does. -/
def innerLoop (A B : Shape) (ai : ℕ) : List ℕ → ℚ → ℚ → List (ℚ × ℚ)
  | [], _, _ => []
  | bi :: rest, ix, iy =>
      let r := stepPair A B ai bi ix iy
      (match r.1 with
       | some p => [p]
       | Option.none => []) ++ innerLoop A B ai rest r.2.1 r.2.2

/-- The outer loop of `FindIntersection` over A's candidate edges. -/
def outerLoop (A B : Shape) : List ℕ → List (ℚ × ℚ)
  | [] => []
  | ai :: rest =>
      innerLoop A B ai B.mIsectEdge (initIx A ai) (initIy A ai) ++ outerLoop A B rest

/-- `FindIntersection(const Shape& A, const Shape& B)`: the sequence
of intersection points the call prints, in print order. -/
def FindIntersection (A B : Shape) : List (ℚ × ℚ) :=
  outerLoop A B A.mIsectEdge

/-- The state effect of a `FindIntersection` call: both parameters
are `const Shape&` and the function writes no field of either (it
only reads and prints), so the shapes pass through unchanged. -/
def FindIntersectionRun (A B : Shape) : List (ℚ × ℚ) × Shape × Shape :=
  (FindIntersection A B, A, B)

namespace Rectangle

/-- `Rectangle::Slope`: slope of edge `index` of the 4-gon stored in
the 8-entry coordinate list; `INV` for a vertical edge, `0` for a
horizontal one. -/
def Slope (pts : List ℚ) (index : ℕ) : ℚ :=
  let x1 := pts.getD (2 * index) 0
  let x2 := pts.getD ((2 * index + 2) % 8) 0
  if x1 = x2 then INV
  else
    let y1 := pts.getD (2 * index + 1) 0
    let y2 := pts.getD ((2 * index + 3) % 8) 0
    if y1 = y2 then 0
    else (y1 - y2) / (x1 - x2)

/-- `Rectangle::SanityCheck`: opposite slopes must match, then the
adjacent pair is tested: a slope of `0` demands `INV` opposite it (and
vice versa), otherwise both slopes must be away from `0` and `INV`
and multiply to `-1`. -/
def SanityCheck (pts : List ℚ) : Bool :=
  let s0 := Slope pts 0
  let s1 := Slope pts 1
  let s2 := Slope pts 2
  let s3 := Slope pts 3
  if s0 ≠ s2 then false
  else if s1 ≠ s3 then false
  else if s0 = 0 ∨ s0 = INV then
    (if s0 = 0 then decide (s1 = INV) else decide (s1 = 0))
  else if s1 = 0 ∨ s1 = INV then false
  else decide (s0 * s1 = -1)

end Rectangle


/-- Every vertex-scan iteration moves `(sum_B, adj_ct)` by one of four
elementary steps. -/
lemma scanStep_cases (A B : Shape) (i j : ℕ) (s : ℚ) (c : ℕ) :
    scanStep A B i (s, c) j = (s + 1, c) ∨ scanStep A B i (s, c) j = (s - 1, c) ∨
    scanStep A B i (s, c) j = (s, c + 1) ∨ scanStep A B i (s, c) j = (s, c) := by
  simp only [scanStep]
  split_ifs <;> simp

/-- Each vertex of the other polygon contributes at most one unit to
`|sum_B|` and `adj_ct` combined. -/
lemma scan_foldl_bound (A B : Shape) (i : ℕ) : ∀ (js : List ℕ) (s : ℚ) (c : ℕ),
    c ≤ (js.foldl (scanStep A B i) (s, c)).2 ∧
    |(js.foldl (scanStep A B i) (s, c)).1 - s| +
      (((js.foldl (scanStep A B i) (s, c)).2 : ℚ) - (c : ℚ)) ≤ js.length := by
  intro js
  induction js with
  | nil => intro s c; simp
  | cons j t ih =>
      intro s c
      simp only [List.foldl_cons, List.length_cons]
      rcases scanStep_cases A B i j s c with h | h | h | h <;> rw [h]
      · obtain ⟨hc, hb⟩ := ih (s + 1) c
        refine ⟨hc, ?_⟩
        have htri := abs_sub_le (t.foldl (scanStep A B i) (s + 1, c)).1 (s + 1) s
        have h1 : |s + 1 - s| = (1 : ℚ) := by norm_num
        rw [h1] at htri
        push_cast
        linarith
      · obtain ⟨hc, hb⟩ := ih (s - 1) c
        refine ⟨hc, ?_⟩
        have htri := abs_sub_le (t.foldl (scanStep A B i) (s - 1, c)).1 (s - 1) s
        have h1 : |s - 1 - s| = (1 : ℚ) := by norm_num
        rw [h1] at htri
        push_cast
        linarith
      · obtain ⟨hc, hb⟩ := ih s (c + 1)
        refine ⟨by omega, ?_⟩
        push_cast at hb ⊢
        linarith
      · obtain ⟨hc, hb⟩ := ih s c
        refine ⟨hc, ?_⟩
        push_cast
        linarith

/-- `|sum_B| + adj_ct` never exceeds the other polygon's side count. -/
lemma sumB_adjCt_bound (A B : Shape) (i : ℕ) :
    |sumB A B i| + (adjCt A B i : ℚ) ≤ (B.mNumSides : ℚ) := by
  have h := (scan_foldl_bound A B i (List.range B.mNumSides) 0 0).2
  simpa [sumB, adjCt, scanB] using h

/-- The reduced sign `sum_A` is always `1` or `-1`. -/
lemma sumA_eq_one_or_neg_one (A : Shape) (i : ℕ) : sumA A i = 1 ∨ sumA A i = -1 := by
  unfold sumA
  split_ifs <;> simp

/-- With two of the other polygon's vertices on the line, `sum_B` can
reach neither `-sum_A * n` nor `sum_A * n`. -/
lemma adjCt_two_excludes (A B : Shape) (i : ℕ) (h : adjCt A B i = 2) :
    sumB A B i ≠ -(sumA A i) * (B.mNumSides : ℚ) ∧
    sumB A B i ≠ sumA A i * (B.mNumSides : ℚ) := by
  have hb := sumB_adjCt_bound A B i
  rw [h] at hb
  push_cast at hb
  constructor <;> intro he <;>
    (have habs : |sumB A B i| = (B.mNumSides : ℚ) := by
      rcases sumA_eq_one_or_neg_one A i with hs | hs <;>
        simp [he, hs, abs_mul, Nat.abs_cast]) <;>
    linarith [habs ▸ hb]

/-- The edge loop only ever appends to its accumulator: running it
from `acc` yields the same classification as running it from the
empty list, with `acc` as a prefix of the final vector. -/
lemma analyzeGo_acc (A B : Shape) : ∀ (js : List ℕ) (ct : ℕ) (acc : List ℕ),
    analyzeGo A B js ct acc =
      ((analyzeGo A B js ct []).1, acc ++ (analyzeGo A B js ct []).2) := by
  intro js
  induction js with
  | nil => intro ct acc; simp [analyzeGo]
  | cons i rest ih =>
      intro ct acc
      simp only [analyzeGo]
      cases h : edgeStep A B i with
      | sApart => simp
      | sAdj => simp
      | sContain => exact ih (ct + 1) acc
      | sPush =>
          rw [ih ct (acc ++ [i]), ih ct ([] ++ [i])]
          simp

/-- After `Analyze`, the subject's candidate-edge vector is its prior
contents followed by the indices recorded during this run. -/
lemma Analyze_isect_append (A B : Shape) :
    ((Analyze A B).2).mIsectEdge = A.mIsectEdge ++ recorded A B := by
  show (analyzeGo A B (List.range A.mNumSides) 0 A.mIsectEdge).2 = _
  rw [analyzeGo_acc A B (List.range A.mNumSides) 0 A.mIsectEdge]
  rfl

/-- A shape whose candidate-edge vector holds a stale entry `7` from
an earlier run, and a far-away partner square. -/
def staleSqA : Shape := ⟨4, [0, 0, 2, 0, 2, 2, 0, 2], [7], "Rectangle"⟩

/-- A square far away from the others, used as the `other` polygon. -/
def apartSqB : Shape := ⟨4, [10, 10, 12, 10, 12, 12, 10, 12], [], "Rectangle"⟩

/-- C1, counterexample: `Analyze` does not clear the subject's
candidate-edge set.  A stale index `7` (not an edge index of the
4-gon, so it cannot have been recorded during this call) survives the
call. -/
theorem c1_stale_entry_persists :
    staleSqA.mIsectEdge = [7] ∧ 7 ∉ List.range staleSqA.mNumSides ∧
    (Analyze staleSqA apartSqB).1 = CollisionType.apart ∧
    ((Analyze staleSqA apartSqB).2).mIsectEdge = [7] := by
  refine ⟨rfl, by decide, ?_, ?_⟩ <;>
    norm_num [Analyze, analyzeGo, edgeStep, sumA, sumAraw, sumB, adjCt, scanB, scanStep,
      dotprod, rotX, rotY, ex1, ey1, ex2, ey2, getP, LiesOnEdge, staleSqA, apartSqB,
      List.range_succ]

/-- C1, amended: `Analyze` never clears the subject's candidate-edge
set; when the call returns, the set holds its prior contents followed
by exactly the edge indices recorded during that call. -/
theorem c1_analyze_appends_without_clearing (A B : Shape) :
    ((Analyze A B).2).mIsectEdge = A.mIsectEdge ++ recorded A B :=
  Analyze_isect_append A B

/-- Left unit square of the adjacency scenario. -/
def adjSqA : Shape := ⟨4, [0, 0, 1, 0, 1, 1, 0, 1], [], "Rectangle"⟩

/-- Right unit square of the adjacency scenario, sharing the edge
`x = 1`. -/
def adjSqB : Shape := ⟨4, [1, 0, 2, 0, 2, 1, 1, 1], [], "Rectangle"⟩

/-- C2: at an edge with `adj_ct == 2`, the loop returns `adj` at once
when the sign of `sum_B` is `-sum_A`, and otherwise appends the edge
to the candidate set, casting no containment vote. -/
theorem c2_adjacency_decision (A B : Shape) (i : ℕ) (rest : List ℕ) (ct : ℕ)
    (acc : List ℕ) (h2 : adjCt A B i = 2) :
    ((if sumB A B i > 0 then (1 : ℚ) else -1) = -(sumA A i) →
      analyzeGo A B (i :: rest) ct acc = (CollisionType.adj, acc)) ∧
    ((if sumB A B i > 0 then (1 : ℚ) else -1) ≠ -(sumA A i) →
      analyzeGo A B (i :: rest) ct acc = analyzeGo A B rest ct (acc ++ [i])) := by
  have hna := (adjCt_two_excludes A B i h2).1
  constructor <;> intro hs
  · have hstep : edgeStep A B i = EdgeStep.sAdj := by
      unfold edgeStep
      rw [if_neg hna, if_pos h2, if_pos hs]
    simp [analyzeGo, hstep]
  · have hstep : edgeStep A B i = EdgeStep.sPush := by
      unfold edgeStep
      rw [if_neg hna, if_pos h2, if_neg hs]
    simp [analyzeGo, hstep]

/-- C2, witness: the shared-edge squares trigger the adjacency return
at edge 1 of the left square. -/
theorem c2_adjacency_decision_witness :
    adjCt adjSqA adjSqB 1 = 2 ∧
    (if sumB adjSqA adjSqB 1 > 0 then (1 : ℚ) else -1) = -(sumA adjSqA 1) ∧
    analyzeGo adjSqA adjSqB [1, 2, 3] 0 [] = (CollisionType.adj, []) :=
  ⟨by norm_num [adjCt, scanB, scanStep, dotprod, rotX, rotY, ex1, ey1, ex2, ey2, getP,
      LiesOnEdge, adjSqA, adjSqB, List.range_succ],
   by norm_num [sumB, sumA, sumAraw, adjCt, scanB, scanStep, dotprod, rotX, rotY, ex1,
      ey1, ex2, ey2, getP, LiesOnEdge, adjSqA, adjSqB, List.range_succ],
   (c2_adjacency_decision adjSqA adjSqB 1 [2, 3] 0 []
      (by norm_num [adjCt, scanB, scanStep, dotprod, rotX, rotY, ex1, ey1, ex2, ey2, getP,
        LiesOnEdge, adjSqA, adjSqB, List.range_succ])).1
     (by norm_num [sumB, sumA, sumAraw, adjCt, scanB, scanStep, dotprod, rotX, rotY, ex1,
        ey1, ex2, ey2, getP, LiesOnEdge, adjSqA, adjSqB, List.range_succ])⟩

/-- The near square of the apart scenario. -/
def apartSqA : Shape := ⟨4, [0, 0, 2, 0, 2, 2, 0, 2], [], "Rectangle"⟩

/-- C3: an edge with every vertex of the other polygon strictly
opposite makes the loop return `apart` immediately, whatever edges
remain. -/
theorem c3_apart_short_circuit (A B : Shape) (i : ℕ) (rest : List ℕ) (ct : ℕ)
    (acc : List ℕ) (h : sumB A B i = -(sumA A i) * (B.mNumSides : ℚ)) :
    analyzeGo A B (i :: rest) ct acc = (CollisionType.apart, acc) := by
  have hstep : edgeStep A B i = EdgeStep.sApart := by
    unfold edgeStep
    rw [if_pos h]
  simp [analyzeGo, hstep]

/-- C3, witness: the far-away squares separate at edge 1. -/
theorem c3_apart_short_circuit_witness :
    sumB apartSqA apartSqB 1 = -(sumA apartSqA 1) * ((apartSqB.mNumSides : ℕ) : ℚ) ∧
    analyzeGo apartSqA apartSqB [1, 2, 3] 0 [] = (CollisionType.apart, []) :=
  ⟨by norm_num [sumB, sumA, sumAraw, scanB, scanStep, dotprod, rotX, rotY, ex1, ey1,
      ex2, ey2, getP, LiesOnEdge, apartSqA, apartSqB, List.range_succ],
   c3_apart_short_circuit apartSqA apartSqB 1 [2, 3] 0 []
     (by norm_num [sumB, sumA, sumAraw, scanB, scanStep, dotprod, rotX, rotY, ex1, ey1,
        ex2, ey2, getP, LiesOnEdge, apartSqA, apartSqB, List.range_succ])⟩

/-- The number of subject edges for which every vertex of the other
polygon lies strictly on the subject's side
(`sum_B == sum_A * other.sides`). -/
def containVotes (A B : Shape) : ℕ :=
  ((List.range A.mNumSides).filter
    (fun i => decide (sumB A B i = sumA A i * (B.mNumSides : ℚ)))).length

/-- Away from the `apart` return, an edge casts a containment vote
exactly when `sum_B = sum_A * n`. -/
lemma edgeStep_contain_iff (A B : Shape) (i : ℕ)
    (hna : edgeStep A B i ≠ EdgeStep.sApart) :
    edgeStep A B i = EdgeStep.sContain ↔
      sumB A B i = sumA A i * (B.mNumSides : ℚ) := by
  unfold edgeStep at hna ⊢
  by_cases h1 : sumB A B i = -(sumA A i) * (B.mNumSides : ℚ)
  · rw [if_pos h1] at hna
    exact absurd rfl hna
  · rw [if_neg h1]
    by_cases h2 : adjCt A B i = 2
    · rw [if_pos h2]
      have hno := (adjCt_two_excludes A B i h2).2
      constructor
      · intro hc
        split_ifs at hc
      · intro hs
        exact absurd hs hno
    · rw [if_neg h2]
      by_cases h3 : sumB A B i = sumA A i * (B.mNumSides : ℚ)
      · rw [if_pos h3]
        simp [h3]
      · rw [if_neg h3]
        simp [h3]

/-- When no edge of `js` triggers the `apart` or `adj` return, the
loop's verdict is decided by counting the containment votes of `js`. -/
lemma analyzeGo_no_stop (A B : Shape) : ∀ (js : List ℕ) (ct : ℕ) (acc : List ℕ),
    (∀ i ∈ js, edgeStep A B i ≠ EdgeStep.sApart ∧ edgeStep A B i ≠ EdgeStep.sAdj) →
    (analyzeGo A B js ct acc).1 =
      (if ct + (js.filter
          (fun i => decide (sumB A B i = sumA A i * (B.mNumSides : ℚ)))).length
         = B.mNumSides
       then CollisionType.contain else CollisionType.none) := by
  intro js
  induction js with
  | nil => intro ct acc _; simp [analyzeGo]
  | cons i rest ih =>
      intro ct acc h
      have hi := h i (List.mem_cons_self i rest)
      have hrest : ∀ j ∈ rest,
          edgeStep A B j ≠ EdgeStep.sApart ∧ edgeStep A B j ≠ EdgeStep.sAdj :=
        fun j hj => h j (List.mem_cons_of_mem i hj)
      simp only [analyzeGo]
      cases hstep : edgeStep A B i with
      | sApart => exact absurd hstep hi.1
      | sAdj => exact absurd hstep hi.2
      | sContain =>
          have hp : sumB A B i = sumA A i * (B.mNumSides : ℚ) :=
            (edgeStep_contain_iff A B i hi.1).1 hstep
          rw [ih (ct + 1) acc hrest]
          have harr : ct + 1 + (rest.filter
              (fun i => decide (sumB A B i = sumA A i * (B.mNumSides : ℚ)))).length
            = ct + ((i :: rest).filter
              (fun i => decide (sumB A B i = sumA A i * (B.mNumSides : ℚ)))).length := by
            simp [List.filter_cons, hp]
            omega
          rw [harr]
      | sPush =>
          have hp : ¬ sumB A B i = sumA A i * (B.mNumSides : ℚ) := by
            intro hc
            have := (edgeStep_contain_iff A B i hi.1).2 hc
            rw [hstep] at this
            exact absurd this (by simp)
          rw [ih ct (acc ++ [i]) hrest]
          have harr : (rest.filter
              (fun i => decide (sumB A B i = sumA A i * (B.mNumSides : ℚ)))).length
            = ((i :: rest).filter
              (fun i => decide (sumB A B i = sumA A i * (B.mNumSides : ℚ)))).length := by
            simp [List.filter_cons, hp]
          rw [harr]

/-- C4: when the loop over all subject edges completes without the
`apart` or `adj` returns, `Analyze` answers `contain` exactly when
the containment counter reaches the other polygon's side count, and
`none` (undetermined) otherwise. -/
theorem c4_contain_vote_final (A B : Shape)
    (h : ∀ i ∈ List.range A.mNumSides,
      edgeStep A B i ≠ EdgeStep.sApart ∧ edgeStep A B i ≠ EdgeStep.sAdj) :
    (Analyze A B).1 =
      (if containVotes A B = B.mNumSides then CollisionType.contain
       else CollisionType.none) := by
  show (analyzeGo A B (List.range A.mNumSides) 0 A.mIsectEdge).1 = _
  rw [analyzeGo_no_stop A B (List.range A.mNumSides) 0 A.mIsectEdge h]
  simp [containVotes]

/-- The outer square of the containment scenario. -/
def bigSqA : Shape := ⟨4, [0, 0, 4, 0, 4, 4, 0, 4], [], "Rectangle"⟩

/-- The inner square of the containment scenario. -/
def smallSqB : Shape := ⟨4, [1, 1, 2, 1, 2, 2, 1, 2], [], "Rectangle"⟩

/-- C4, witness: the nested squares take no early return and all four
edges vote containment, so `Analyze` answers `contain`. -/
theorem c4_contain_vote_final_witness :
    (∀ i ∈ List.range bigSqA.mNumSides,
      edgeStep bigSqA smallSqB i ≠ EdgeStep.sApart ∧
      edgeStep bigSqA smallSqB i ≠ EdgeStep.sAdj) ∧
    (Analyze bigSqA smallSqB).1 = CollisionType.contain := by
  have h : ∀ i ∈ List.range bigSqA.mNumSides,
      edgeStep bigSqA smallSqB i ≠ EdgeStep.sApart ∧
      edgeStep bigSqA smallSqB i ≠ EdgeStep.sAdj := by
    intro i hi
    have hi4 : i < 4 := by simpa [bigSqA] using hi
    interval_cases i <;>
      refine ⟨?_, ?_⟩ <;>
      · norm_num [edgeStep, sumA, sumAraw, sumB, adjCt, scanB, scanStep, dotprod, rotX,
          rotY, ex1, ey1, ex2, ey2, getP, LiesOnEdge, bigSqA, smallSqB, List.range_succ]
        decide
  refine ⟨h, ?_⟩
  rw [c4_contain_vote_final bigSqA smallSqB h]
  norm_num [containVotes, sumB, sumA, sumAraw, scanB, scanStep, dotprod, rotX, rotY,
    ex1, ey1, ex2, ey2, getP, LiesOnEdge, bigSqA, smallSqB, List.range_succ]

/-- C5: `ProcessData` returns the first analysis with `which = 0`
when it is conclusive, otherwise the second analysis (on B's edges,
with A carrying the state of the first call) with `which = 1`; the
final answer is `none` (the pair intersects) exactly when both
analyses were undetermined. -/
theorem c5_processData_order (A B : Shape) :
    ProcessData A B =
      (if (Analyze A B).1 = CollisionType.none then
        ((Analyze B (Analyze A B).2).1, (Analyze A B).2,
          (Analyze B (Analyze A B).2).2, 1)
       else ((Analyze A B).1, (Analyze A B).2, B, 0)) ∧
    ((ProcessData A B).1 = CollisionType.none ↔
      (Analyze A B).1 = CollisionType.none ∧
      (Analyze B (Analyze A B).2).1 = CollisionType.none) := by
  by_cases h : (Analyze A B).1 = CollisionType.none <;>
    simp [ProcessData, h]

/-- C10: `Analyze` touches no polygon state but the subject's
candidate-edge vector, which it only extends by appending;
`FindIntersection` takes both shapes as read-only references and
passes them through unchanged, emitting points as output only. -/
theorem c10_frame (A B : Shape) :
    (Analyze A B).2.mNumSides = A.mNumSides ∧
    (Analyze A B).2.mPoints = A.mPoints ∧
    (Analyze A B).2.mName = A.mName ∧
    ((Analyze A B).2).mIsectEdge = A.mIsectEdge ++ recorded A B ∧
    FindIntersectionRun A B = (FindIntersection A B, A, B) :=
  ⟨rfl, rfl, rfl, Analyze_isect_append A B, rfl⟩

/-- Both emission sites of the inner-loop body sit behind the
`LiesOnEdge` guard for both contributing edges. -/
lemma stepPair_emit (A B : Shape) (ai bi : ℕ) (ix iy : ℚ) (p : ℚ × ℚ) (s : ℚ × ℚ)
    (h : stepPair A B ai bi ix iy = (some p, s)) :
    LiesOnEdge A p.1 p.2 ai = true ∧ LiesOnEdge B p.1 p.2 bi = true := by
  simp only [stepPair] at h
  split_ifs at h with h1 h2 h3 h4 h5 h6 <;>
    simp_all [Bool.and_eq_true, Prod.mk.injEq]

/-- Every point produced by the inner loop over B's candidate edges
comes from some candidate edge of B and lies on both edges' boxes. -/
lemma innerLoop_mem (A B : Shape) (ai : ℕ) : ∀ (bis : List ℕ) (ix iy : ℚ) (p : ℚ × ℚ),
    p ∈ innerLoop A B ai bis ix iy →
    ∃ bi ∈ bis, LiesOnEdge A p.1 p.2 ai = true ∧ LiesOnEdge B p.1 p.2 bi = true := by
  intro bis
  induction bis with
  | nil => intro ix iy p hp; simp [innerLoop] at hp
  | cons bi rest ih =>
      intro ix iy p hp
      simp only [innerLoop] at hp
      rcases hsp : stepPair A B ai bi ix iy with ⟨em, st⟩
      rw [hsp] at hp
      cases em with
      | none =>
          simp only [List.nil_append] at hp
          obtain ⟨bi', hb', hl⟩ := ih st.1 st.2 p hp
          exact ⟨bi', List.mem_cons_of_mem bi hb', hl⟩
      | some q =>
          simp only [List.cons_append, List.nil_append, List.mem_cons] at hp
          rcases hp with rfl | hp
          · exact ⟨bi, List.mem_cons_self bi rest,
              stepPair_emit A B ai bi ix iy p st hsp⟩
          · obtain ⟨bi', hb', hl⟩ := ih st.1 st.2 p hp
            exact ⟨bi', List.mem_cons_of_mem bi hb', hl⟩

/-- Every point produced by the outer loop comes from a candidate
edge of each polygon and lies on both edges' boxes. -/
lemma outerLoop_mem (A B : Shape) : ∀ (ais : List ℕ) (p : ℚ × ℚ),
    p ∈ outerLoop A B ais →
    ∃ ai ∈ ais, ∃ bi ∈ B.mIsectEdge,
      LiesOnEdge A p.1 p.2 ai = true ∧ LiesOnEdge B p.1 p.2 bi = true := by
  intro ais
  induction ais with
  | nil => intro p hp; simp [outerLoop] at hp
  | cons ai rest ih =>
      intro p hp
      simp only [outerLoop, List.mem_append] at hp
      rcases hp with hp | hp
      · obtain ⟨bi, hb, hl⟩ := innerLoop_mem A B ai B.mIsectEdge _ _ p hp
        exact ⟨ai, List.mem_cons_self ai rest, bi, hb, hl⟩
      · obtain ⟨ai', ha', rest'⟩ := ih p hp
        exact ⟨ai', List.mem_cons_of_mem ai ha', rest'⟩

/-- C7: every intersection point `FindIntersection` emits passes the
`LiesOnEdge` test for both contributing candidate edges. -/
theorem c7_emitted_liesOnEdge (A B : Shape) (p : ℚ × ℚ)
    (h : p ∈ FindIntersection A B) :
    ∃ ai ∈ A.mIsectEdge, ∃ bi ∈ B.mIsectEdge,
      LiesOnEdge A p.1 p.2 ai = true ∧ LiesOnEdge B p.1 p.2 bi = true :=
  outerLoop_mem A B A.mIsectEdge p h

/-- Square whose candidate edge 1 is the vertical segment
`(2,0)-(2,2)`. -/
def perpSqA : Shape := ⟨4, [0, 0, 2, 0, 2, 2, 0, 2], [1], "Rectangle"⟩

/-- Overlapping square whose candidate edge 0 is the horizontal
segment `(1,1)-(3,1)`. -/
def perpSqB : Shape := ⟨4, [1, 1, 3, 1, 3, 3, 1, 3], [0], "Rectangle"⟩

/-- C7, witness: the overlapping squares emit `(2,1)`, which lies on
both contributing edges. -/
theorem c7_emitted_liesOnEdge_witness :
    ((2 : ℚ), (1 : ℚ)) ∈ FindIntersection perpSqA perpSqB ∧
    ∃ ai ∈ perpSqA.mIsectEdge, ∃ bi ∈ perpSqB.mIsectEdge,
      LiesOnEdge perpSqA 2 1 ai = true ∧ LiesOnEdge perpSqB 2 1 bi = true := by
  have hmem : ((2 : ℚ), (1 : ℚ)) ∈ FindIntersection perpSqA perpSqB := by
    norm_num [FindIntersection, outerLoop, innerLoop, stepPair, postReset, postBSet,
      perpCond, chainFallthrough, solveIntr, slopeE, interceptE, initIx, initIy,
      LiesOnEdge, ex1, ey1, ex2, ey2, getP, INV, perpSqA, perpSqB]
  exact ⟨hmem, c7_emitted_liesOnEdge perpSqA perpSqB (2, 1) hmem⟩

/-- Unit square whose candidate edge 1 is the vertical segment
`(1,0)-(1,1)`, ending at the vertex `(1,1)`. -/
def vertSqA : Shape := ⟨4, [0, 0, 1, 0, 1, 1, 0, 1], [1], "Rectangle"⟩

/-- Square sitting on top, whose candidate edge 0 is the horizontal
segment `(0,1)-(2,1)` through that same vertex. -/
def horSqB : Shape := ⟨4, [0, 1, 2, 1, 2, 2, 0, 2], [0], "Rectangle"⟩

/-- C6, counterexample: the perpendicular fast path carries no
second-endpoint check, so the crossing `(1,1)` is emitted even though
it coincides exactly with the second endpoint of A's contributing
edge 1. -/
theorem c6_perp_path_emits_endpoint :
    FindIntersection vertSqA horSqB = [(1, 1)] ∧
    ex2 vertSqA 1 = 1 ∧ ey2 vertSqA 1 = 1 := by
  refine ⟨?_, ?_, ?_⟩ <;>
    norm_num [FindIntersection, outerLoop, innerLoop, stepPair, postReset, postBSet,
      perpCond, chainFallthrough, solveIntr, slopeE, interceptE, initIx, initIy,
      LiesOnEdge, ex1, ey1, ex2, ey2, getP, INV, vertSqA, horSqB]

/-- C6, amended: on the line-solving paths (all inner-loop paths
except the perpendicular fast path) a computed point equal to either
edge's second endpoint is skipped; the fast path lacks this check. -/
theorem c6_dedup_on_solve_path (A B : Shape) (ai bi : ℕ) (ix iy : ℚ)
    (p : ℚ × ℚ) (s : ℚ × ℚ)
    (hnp : perpCond A B ai bi (postBSet B bi (postReset A ai (ix, iy))) = false)
    (h : stepPair A B ai bi ix iy = (some p, s)) :
    ¬(p.1 = ex2 A ai ∧ p.2 = ey2 A ai) ∧ ¬(p.1 = ex2 B bi ∧ p.2 = ey2 B bi) := by
  simp only [stepPair] at h
  split_ifs at h with h1 h2 h3 h4 h5 h6
  · exact absurd h (by simp)
  · rw [hnp] at h2
    simp at h2
  · rw [hnp] at h2
    simp at h2
  · exact absurd h (by simp)
  · exact absurd h (by simp)
  · simp only [Prod.mk.injEq, Option.some.injEq] at h
    obtain ⟨rfl, -⟩ := h
    rw [not_or] at h5
    exact h5
  · exact absurd h (by simp)

/-- Helper square. -/
def solveSqA : Shape := ⟨4, [0, 0, 2, 0, 2, 2, 0, 2], [1], "Rectangle"⟩

/-- Partner with a sloped candidate edge `(1,0)-(3,2)`. -/
def solveSqB : Shape := ⟨4, [1, 0, 3, 2, 3, 3, 1, 3], [0], "Rectangle"⟩

/-- C6, witness: a vertical-versus-sloped pair takes a solving path
(the fast-path guard is false), emits `(2,1)`, and that point differs
from both second endpoints. -/
theorem c6_dedup_on_solve_path_witness :
    perpCond solveSqA solveSqB 1 0
      (postBSet solveSqB 0 (postReset solveSqA 1 (2, INV))) = false ∧
    stepPair solveSqA solveSqB 1 0 2 INV = (some (2, 1), 2, 1) ∧
    ¬((2 : ℚ) = ex2 solveSqA 1 ∧ (1 : ℚ) = ey2 solveSqA 1) ∧
    ¬((2 : ℚ) = ex2 solveSqB 0 ∧ (1 : ℚ) = ey2 solveSqB 0) := by
  have h1 : perpCond solveSqA solveSqB 1 0
      (postBSet solveSqB 0 (postReset solveSqA 1 (2, INV))) = false := by
    norm_num [perpCond, postBSet, postReset, slopeE, interceptE, ex1, ey1, ex2, ey2,
      getP, INV, solveSqA, solveSqB]
  have h2 : stepPair solveSqA solveSqB 1 0 2 INV = (some (2, 1), 2, 1) := by
    norm_num [stepPair, postReset, postBSet, perpCond, chainFallthrough, solveIntr,
      slopeE, interceptE, LiesOnEdge, ex1, ey1, ex2, ey2, getP, INV, solveSqA, solveSqB]
  have h3 := c6_dedup_on_solve_path solveSqA solveSqB 1 0 2 INV (2, 1) (2, 1) h1 h2
  exact ⟨h1, h2, h3.1, h3.2⟩

/-- Quadrilateral whose candidate edge 0 runs from `(INV, 0)` to
`(0, INV)`: a sloped edge of slope `-1` through coordinates that
collide with the sentinel value. -/
def diagNW : Shape := ⟨4, [INV, 0, 0, INV, -1, INV, -1, 0], [0], "Rectangle"⟩

/-- Quadrilateral whose candidate edge 0 runs from `(0, INV)` to
`(INV, 0)`: sloped, slope `-1`, parallel to `diagNW`'s edge 0. -/
def diagSE : Shape := ⟨4, [0, INV, INV, 0, INV, -1, 0, -1], [0], "Rectangle"⟩

/-- C8, counterexample: a pair of sloped, equal-slope (parallel)
candidate edges whose first endpoints collide with the sentinel
`0xdeadbeef` satisfies the perpendicular fast-path guard by accident
and emits the point `(INV, INV)`. -/
theorem c8_parallel_sloped_emits :
    ex1 diagNW 0 ≠ ex2 diagNW 0 ∧ ey1 diagNW 0 ≠ ey2 diagNW 0 ∧
    ex1 diagSE 0 ≠ ex2 diagSE 0 ∧ ey1 diagSE 0 ≠ ey2 diagSE 0 ∧
    slopeE diagNW 0 = slopeE diagSE 0 ∧
    FindIntersection diagNW diagSE = [(INV, INV)] := by
  refine ⟨?_, ?_, ?_, ?_, ?_, ?_⟩ <;>
    norm_num [FindIntersection, outerLoop, innerLoop, stepPair, postReset, postBSet,
      perpCond, chainFallthrough, solveIntr, slopeE, interceptE, initIx, initIy,
      LiesOnEdge, ex1, ey1, ex2, ey2, getP, INV, diagNW, diagSE]

/-- C8, amended: a parallel candidate pair (both edges vertical, both
horizontal, or both sloped with equal slopes) emits no point,
provided in the sloped case that the four first-endpoint coordinates
stay clear of the sentinel value `INV`. -/
theorem c8_parallel_skip (A B : Shape) (ai bi : ℕ) (ix iy : ℚ)
    (h : (ex1 A ai = ex2 A ai ∧ ex1 B bi = ex2 B bi) ∨
         (ey1 A ai = ey2 A ai ∧ ey1 B bi = ey2 B bi) ∨
         (ex1 A ai ≠ ex2 A ai ∧ ey1 A ai ≠ ey2 A ai ∧
          ex1 B bi ≠ ex2 B bi ∧ ey1 B bi ≠ ey2 B bi ∧
          slopeE A ai = slopeE B bi ∧
          ex1 A ai ≠ INV ∧ ey1 A ai ≠ INV ∧ ex1 B bi ≠ INV ∧ ey1 B bi ≠ INV)) :
    (stepPair A B ai bi ix iy).1 = Option.none := by
  rcases h with ⟨h1, h2⟩ | ⟨h1, h2⟩ | ⟨hv1, hh1, hv2, hh2, hsl, f1, f2, f3, f4⟩
  · simp [stepPair, h1, h2]
  · simp [stepPair, h1, h2]
  · have g1 : INV ≠ ex1 A ai := Ne.symm f1
    have g2 : INV ≠ ey1 A ai := Ne.symm f2
    have g3 : INV ≠ ex1 B bi := Ne.symm f3
    have g4 : INV ≠ ey1 B bi := Ne.symm f4
    simp [stepPair, postReset, postBSet, perpCond, chainFallthrough, hv1, hh1, hv2,
      hh2, hsl, g1, g2, g3, g4]

/-- Parallelogram half: candidate edge 0 is the diagonal
`(0,0)-(1,1)` of slope 1. -/
def paraSqA : Shape := ⟨4, [0, 0, 1, 1, 1, 2, 0, 2], [0], "Rectangle"⟩

/-- Its translate: candidate edge 0 is the parallel diagonal
`(0,2)-(1,3)` of slope 1. -/
def paraSqB : Shape := ⟨4, [0, 2, 1, 3, 1, 4, 0, 4], [0], "Rectangle"⟩

/-- C8, witness: two sloped parallel candidate edges away from the
sentinel emit nothing. -/
theorem c8_parallel_skip_witness :
    (ex1 paraSqA 0 ≠ ex2 paraSqA 0 ∧ ey1 paraSqA 0 ≠ ey2 paraSqA 0 ∧
     ex1 paraSqB 0 ≠ ex2 paraSqB 0 ∧ ey1 paraSqB 0 ≠ ey2 paraSqB 0 ∧
     slopeE paraSqA 0 = slopeE paraSqB 0 ∧
     ex1 paraSqA 0 ≠ INV ∧ ey1 paraSqA 0 ≠ INV ∧
     ex1 paraSqB 0 ≠ INV ∧ ey1 paraSqB 0 ≠ INV) ∧
    (stepPair paraSqA paraSqB 0 0 0 0).1 = Option.none := by
  have h9 : ex1 paraSqA 0 ≠ ex2 paraSqA 0 ∧ ey1 paraSqA 0 ≠ ey2 paraSqA 0 ∧
      ex1 paraSqB 0 ≠ ex2 paraSqB 0 ∧ ey1 paraSqB 0 ≠ ey2 paraSqB 0 ∧
      slopeE paraSqA 0 = slopeE paraSqB 0 ∧
      ex1 paraSqA 0 ≠ INV ∧ ey1 paraSqA 0 ≠ INV ∧
      ex1 paraSqB 0 ≠ INV ∧ ey1 paraSqB 0 ≠ INV := by
    norm_num [slopeE, ex1, ey1, ex2, ey2, getP, INV, paraSqA, paraSqB]
  exact ⟨h9, c8_parallel_skip paraSqA paraSqB 0 0 0 0 (Or.inr (Or.inr h9))⟩

/-- Written from the claim's words, for comparison with the source
implementation: edge `i` of the 8-entry vertex list is vertical when
its endpoints share their x coordinate. -/
def specVertical (pts : List ℚ) (i : ℕ) : Prop :=
  pts.getD (2 * i) 0 = pts.getD ((2 * i + 2) % 8) 0

/-- Written from the claim's words: edge `i` is horizontal when its
endpoints share their y coordinate. -/
def specHorizontal (pts : List ℚ) (i : ℕ) : Prop :=
  pts.getD (2 * i + 1) 0 = pts.getD ((2 * i + 3) % 8) 0

/-- Written from the claim's words: geometric slope of edge `i`
(meaningful for non-vertical edges). -/
def specSlope (pts : List ℚ) (i : ℕ) : ℚ :=
  (pts.getD (2 * i + 1) 0 - pts.getD ((2 * i + 3) % 8) 0) /
    (pts.getD (2 * i) 0 - pts.getD ((2 * i + 2) % 8) 0)

/-- Written from the claim's words: adjacent edges `i` and `i + 1`
are perpendicular when one is horizontal and the other vertical, or
both are non-vertical with slope product `-1`. -/
def specAdjacentPerpendicular (pts : List ℚ) (i : ℕ) : Prop :=
  (specHorizontal pts i ∧ specVertical pts (i + 1)) ∨
  (specVertical pts i ∧ specHorizontal pts (i + 1)) ∨
  (¬specVertical pts i ∧ ¬specVertical pts (i + 1) ∧
    specSlope pts i * specSlope pts (i + 1) = -1)

/-- A quadrilateral whose edge 1 runs from `(1,0)` to `(2,INV)`: not
vertical, slope numerically equal to the sentinel. -/
def sentinelQuad : List ℚ := [0, 0, 1, 0, 2, INV, 1, INV]

/-- C9, counterexample: `SanityCheck` conflates a slope numerically
equal to `0xdeadbeef` with a vertical edge, so it accepts this
non-rectangular parallelogram whose adjacent edges 0 and 1 are not
perpendicular. -/
theorem c9_sanity_not_perpendicular :
    Rectangle.SanityCheck sentinelQuad = true ∧
    ¬ specAdjacentPerpendicular sentinelQuad 0 := by
  constructor
  · norm_num [Rectangle.SanityCheck, Rectangle.Slope, INV, sentinelQuad]
  · norm_num [specAdjacentPerpendicular, specVertical, specHorizontal, specSlope,
      INV, sentinelQuad]

/-- C9, amended: `SanityCheck` accepts exactly when opposite computed
slopes match and the adjacent slope pair is perpendicular in the
code's encoding (`0` paired with the vertical sentinel `INV`, or two
slopes away from `0` and `INV` with product `-1`; a slope numerically
equal to `0xdeadbeef` is conflated with vertical); the two concrete
vertex lists of the claim behave as stated. -/
theorem c9_sanity_characterization :
    (∀ pts : List ℚ, Rectangle.SanityCheck pts = true ↔
      (Rectangle.Slope pts 0 = Rectangle.Slope pts 2 ∧
       Rectangle.Slope pts 1 = Rectangle.Slope pts 3 ∧
       ((Rectangle.Slope pts 0 = 0 ∧ Rectangle.Slope pts 1 = INV) ∨
        (Rectangle.Slope pts 0 = INV ∧ Rectangle.Slope pts 1 = 0) ∨
        (Rectangle.Slope pts 0 ≠ 0 ∧ Rectangle.Slope pts 0 ≠ INV ∧
         Rectangle.Slope pts 1 ≠ 0 ∧ Rectangle.Slope pts 1 ≠ INV ∧
         Rectangle.Slope pts 0 * Rectangle.Slope pts 1 = -1)))) ∧
    Rectangle.SanityCheck [0, 0, 1, 0, 1, 2, 0, 1] = false ∧
    Rectangle.SanityCheck [0, 0, 2, 0, 2, 1, 0, 1] = true := by
  refine ⟨?_, ?_, ?_⟩
  · intro pts
    simp only [Rectangle.SanityCheck]
    split_ifs with h1 h2 h3 h4 h5 <;> simp_all [INV] <;> tauto
  · norm_num [Rectangle.SanityCheck, Rectangle.Slope, INV]
  · norm_num [Rectangle.SanityCheck, Rectangle.Slope, INV]

/-- C9, witness: the characterization applied at the claim's
accepted concrete vertex list. -/
theorem c9_sanity_characterization_witness :
    Rectangle.SanityCheck [0, 0, 2, 0, 2, 1, 0, 1] = true :=
  c9_sanity_characterization.2.2
